import Mathlib

/-!
Verification of the biosynth genotype-ingestion engine.

The definitions in the `Biosynth` namespace are a shallow embedding of
`src/cli/src/genotype.rs`, `src/cli/src/stats.rs` and
`src/cli/src/commands/genostats.rs`.  Files are modelled as the list of
their lines (each line without its terminating newline); the SQLite sink
is modelled as a caller-supplied function into the `Except` monad.

Rust string primitives (trim, split, starts_with, find, parse::<i64>) are
re-implemented structurally over `List Char` so that every definition is
executable by the kernel; the strings the engine manipulates are treated
at character granularity, matching Rust semantics for the ASCII data the
parser works with.
-/

namespace Biosynth

/-- Characters Rust str::trim removes at either end (ASCII whitespace). -/
def trimChars (l : List Char) : List Char :=
  ((l.dropWhile Char.isWhitespace).reverse.dropWhile Char.isWhitespace).reverse

/-- Rust str::trim. -/
def trimStr (s : String) : String := String.mk (trimChars s.toList)

/-- Split a character list at every separator character (Rust str::split). -/
def splitPredAux (p : Char → Bool) : List Char → List Char → List (List Char)
  | [], cur => [cur.reverse]
  | c :: rest, cur => if p c then cur.reverse :: splitPredAux p rest [] else splitPredAux p rest (c :: cur)

/-- Rust str::split with a character predicate. -/
def splitPred (p : Char → Bool) (s : String) : List String :=
  (splitPredAux p s.toList []).map String.mk

/-- Rust str::split_whitespace: split on whitespace, drop empty tokens. -/
def splitWhitespace (s : String) : List String :=
  (splitPred Char.isWhitespace s).filter (fun t => t ≠ "")

/-- Rust str::starts_with. -/
def startsWithStr (s m : String) : Bool := m.toList.isPrefixOf s.toList

/-- Rust str::contains(char). -/
def containsChar (s : String) (c : Char) : Bool := s.toList.contains c

/-- Mirrors LOOKAHEAD_LINES in genotype.rs. -/
def LOOKAHEAD_LINES : Nat := 2048

/-- Mirrors COMMENT_PREFIXES in genotype.rs (array order matters for find). -/
def COMMENT_MARKERS : List String := ["#", "//"]

/-- Mirrors RSID_ALIASES (declared order of the source array). -/
def RSID_ALIASES : List String := ["rsid", "name", "snp", "marker", "id"]

/-- Mirrors CHROM_ALIASES. -/
def CHROM_ALIASES : List String := ["chromosome", "chr", "chrom"]

/-- Mirrors POSITION_ALIASES. -/
def POSITION_ALIASES : List String :=
  ["position", "pos", "coordinate", "basepairposition", "basepair"]

/-- Mirrors GENOTYPE_ALIASES. -/
def GENOTYPE_ALIASES : List String :=
  ["genotype", "gt", "result", "results", "result1", "call", "calls",
   "yourcode", "code", "genotypevalue", "variation"]

/-- Mirrors ALLELE1_ALIASES. -/
def ALLELE1_ALIASES : List String := ["allele1", "allelea", "allele_a", "allele1top"]

/-- Mirrors ALLELE2_ALIASES. -/
def ALLELE2_ALIASES : List String := ["allele2", "alleleb", "allele_b", "allele2top"]

/-- Byte-lexicographic order of Rust &str (equal to character-lexicographic
order, since UTF-8 preserves code-point order). -/
def charListLt : List Char → List Char → Bool
  | [], [] => false
  | [], _ :: _ => true
  | _ :: _, [] => false
  | a :: as, b :: bs => if a < b then true else if b < a then false else charListLt as bs

/-- Rust Ord on &str. -/
def strLt (x y : String) : Bool := charListLt x.toList y.toList

/-- Insert a string into a sorted duplicate-free list, keeping it sorted.
This is the effect of BTreeSet::insert on the iteration order. -/
def insertSorted (x : String) : List String → List String
  | [] => [x]
  | y :: ys => if strLt x y then x :: y :: ys else if x = y then y :: ys else y :: insertSorted x ys

/-- Iteration order of a BTreeSet built from the given list, as produced by
collecting the alias arrays in LineParser::new: sorted, duplicate-free. -/
def btreeOfList (l : List String) : List String := l.foldl (fun acc a => insertSorted a acc) []

/-- The rsid alias set in BTreeSet iteration order (alias_map entry for rsid). -/
def rsidAliasSet : List String := btreeOfList RSID_ALIASES

/-- The chromosome alias set in BTreeSet iteration order. -/
def chromAliasSet : List String := btreeOfList CHROM_ALIASES

/-- The position alias set in BTreeSet iteration order. -/
def positionAliasSet : List String := btreeOfList POSITION_ALIASES

/-- The genotype alias set in BTreeSet iteration order. -/
def genotypeAliasSet : List String := btreeOfList GENOTYPE_ALIASES

/-- The allele1 alias set in BTreeSet iteration order. -/
def allele1AliasSet : List String := btreeOfList ALLELE1_ALIASES

/-- The allele2 alias set in BTreeSet iteration order. -/
def allele2AliasSet : List String := btreeOfList ALLELE2_ALIASES

/-- Mirrors normalize_name: drop spaces, tabs, hyphens, underscores, lowercase
(ASCII lowercasing; the alias and header names at play are ASCII). -/
def normalize_name (name : String) : String :=
  String.mk ((name.toList.filter
    (fun c => !(c = ' ' || c = '\t' || c = '-' || c = '_'))).map Char.toLower)

/-- First comment marker the (trimmed) line starts with, mirroring
COMMENT_PREFIXES.iter().find(|p| trimmed.starts_with(p)). -/
def findMarker (trimmed : String) : Option String :=
  COMMENT_MARKERS.find? (fun m => startsWithStr trimmed m)

/-- Fuel-driven loop of Rust str::trim_start_matches: strip every leading
repetition of the pattern.  Each successful step removes at least one
character, so fuel equal to the length of the subject is always enough. -/
def stripRepFuel (m : List Char) : Nat → List Char → List Char
  | 0, s => s
  | fuel + 1, s => if m ≠ [] ∧ m.isPrefixOf s then stripRepFuel m fuel (s.drop m.length) else s

/-- Mirrors trimmed.trim_start_matches(marker). -/
def stripRep (m : String) (s : String) : String :=
  String.mk (stripRepFuel m.toList s.toList.length s.toList)

/-- Truncate a character list just before the first occurrence of the pattern
as a contiguous substring (Rust str::find on a substring pattern). -/
def takeUntilSub (pat : List Char) : List Char → List Char
  | [] => []
  | c :: rest => if pat.isPrefixOf (c :: rest) then [] else c :: takeUntilSub pat rest

/-- Mirrors strip_inline_comment: trim, cut at the first '#', then at the
first "//", then trim again. -/
def strip_inline_comment (value : String) : String :=
  let t := (trimStr value).toList
  let t1 := takeUntilSub ['#'] t
  let t2 := takeUntilSub ['/', '/'] t1
  trimStr (String.mk t2)

/-- Rust str::parse::<i64>: optional single sign, one or more ASCII digits,
value within the i64 range. -/
def parseI64 (s : String) : Option Int :=
  let cs := s.toList
  let sign : Int := match cs with
    | '-' :: _ => -1
    | _ => 1
  let digits : List Char := match cs with
    | '+' :: rest => rest
    | '-' :: rest => rest
    | _ => cs
  if digits = [] then none
  else if !digits.all Char.isDigit then none
  else
    let n : Nat := digits.foldl (fun acc c => acc * 10 + (c.toNat - '0'.toNat)) 0
    if sign = 1 then
      if n ≤ 2 ^ 63 - 1 then some (n : Int) else none
    else
      if n ≤ 2 ^ 63 then some (-(n : Int)) else none

/-- Mirrors the Delimiter enum of genotype.rs. -/
inductive Delimiter
  | tab
  | comma
  | space
  deriving DecidableEq, Repr

/-- Mirrors detect_delimiter: scan lines in order; skip blank lines and lines
whose trimmed form starts with a comment marker; a line containing a tab
decides Tab, else a comma decides Comma, else more than one whitespace token
decides Space; otherwise keep scanning; default Tab. -/
def detect_delimiter : List String → Delimiter
  | [] => .tab
  | line :: rest =>
    let trimmed := trimStr line
    if trimmed = "" ∨ (findMarker trimmed).isSome then detect_delimiter rest
    else if containsChar line '\t' then .tab
    else if containsChar line ',' then .comma
    else if (splitWhitespace trimmed).length > 1 then .space
    else detect_delimiter rest

/-- Mirrors split_csv_line's character loop: remaining characters, in-quotes
flag, current field, fields emitted so far. -/
def csvGo : List Char → Bool → List Char → List String → List String
  | [], _, current, fields => fields ++ [trimStr (String.mk current)]
  | '"' :: '"' :: rest, true, current, fields => csvGo rest true (current ++ ['"']) fields
  | '"' :: rest, inQuotes, current, fields => csvGo rest (!inQuotes) current fields
  | ',' :: rest, false, current, fields => csvGo rest false [] (fields ++ [trimStr (String.mk current)])
  | c :: rest, inQuotes, current, fields => csvGo rest inQuotes (current ++ [c]) fields

/-- Mirrors split_csv_line. -/
def split_csv_line (line : String) : List String := csvGo line.toList false [] []

/-- Mirrors the ConsumeOutcome enum of genotype.rs. -/
inductive ConsumeOutcome
  | parsed
  | skipped
  | ignored
  deriving DecidableEq, Repr

/-- Mirrors ParseSummary. -/
structure ParseSummary where
  variant_count : Nat
  skipped_rows : Nat
  deriving DecidableEq, Repr

/-- Mirrors the mutable state of LineParser (the alias map is static and is
embedded as the sorted alias-set lists above). -/
structure LineParser where
  delimiter : Delimiter
  header : Option (List String)
  comment_header : Option (List String)
  deriving DecidableEq, Repr

/-- Mirrors LineParser::new. -/
def LineParser.new (delimiter : Delimiter) : LineParser :=
  { delimiter := delimiter, header := none, comment_header := none }

/-- Mirrors LineParser::parse_fields. -/
def parse_fields (delimiter : Delimiter) (line : String) : List String :=
  match delimiter with
  | .tab => (splitPred (fun c => c = '\t') line).map trimStr
  | .space => (splitWhitespace line).map trimStr
  | .comma => split_csv_line line

/-- Mirrors LineParser::looks_like_header: non-empty field list whose first
field normalizes to an rsid alias. -/
def looks_like_header (fields : List String) : Bool :=
  match fields with
  | [] => false
  | f :: _ => rsidAliasSet.contains (normalize_name f)

/-- Mirrors LineParser::default_header. -/
def default_header (field_count : Nat) : List String :=
  let base : List String := ["rsid", "chromosome", "position", "genotype"]
  if field_count ≤ base.length then base.take field_count
  else base ++ (List.range (field_count - base.length)).map (fun idx => "extra_" ++ toString idx)

/-- The row mapping built by consume_line: normalized header name to
inline-comment-stripped value, by position, dropping tokens beyond the header
length.  Represented as the insertion sequence of the Rust HashMap. -/
def mkRowMap (header fields : List String) : List (String × String) :=
  (header.zip fields).map (fun pr => (normalize_name pr.1, strip_inline_comment pr.2))

/-- HashMap::get over the insertion sequence: the last insert for a key wins. -/
def rowGet (rowMap : List (String × String)) (key : String) : Option String :=
  rowMap.foldl (fun acc pr => if pr.1 = key then some pr.2 else acc) none

/-- Mirrors LineParser::lookup's loop over one alias set: first alias (in the
set's iteration order) whose normalized name maps to a non-empty value. -/
def lookupAliases (rowMap : List (String × String)) : List String → Option String
  | [] => none
  | a :: rest =>
    match rowGet rowMap (normalize_name a) with
    | some v => if v = "" then lookupAliases rowMap rest else some v
    | none => lookupAliases rowMap rest

/-- Mirrors the validation tail of consume_line (lines 229-258 of
genotype.rs): outcome together with the rsid handed to the row handler. -/
def classifyRow (header fields : List String) : ConsumeOutcome × Option String :=
  let rowMap := mkRowMap header fields
  let rsid := lookupAliases rowMap rsidAliasSet
  let chromosome := lookupAliases rowMap chromAliasSet
  let position := lookupAliases rowMap positionAliasSet
  let genotypeValue := lookupAliases rowMap genotypeAliasSet
  match rsid with
  | none => (.skipped, none)
  | some v =>
    if v = "" then (.skipped, none)
    else if chromosome = none ∨ chromosome.getD "" = "" then (.skipped, none)
    else if (position.bind parseI64) = none then (.skipped, none)
    else
      match genotypeValue with
      | some _ => (.parsed, some v)
      | none =>
        let allele1 := (lookupAliases rowMap allele1AliasSet).getD ""
        let allele2 := (lookupAliases rowMap allele2AliasSet).getD ""
        if allele1 = "" ∧ allele2 = "" then (.skipped, none) else (.parsed, some v)

/-- The comment branch of consume_line: strip the marker, and when the
remainder tokenizes to a header-like field list, record it as the comment
header (last candidate wins). -/
def commentUpdate (p : LineParser) (m : String) (trimmed : String) : LineParser :=
  let candidate := trimStr (stripRep m trimmed)
  if candidate = "" then p
  else
    let fields := parse_fields p.delimiter candidate
    if looks_like_header fields then { p with comment_header := some fields } else p

/-- The data branch of consume_line: resolve the header if not yet resolved
(true header line, else comment-header fallback, else synthesized default),
then classify the row. -/
def dataStep (p : LineParser) (line : String) : LineParser × ConsumeOutcome × Option String :=
  let fields := parse_fields p.delimiter line
  if fields = [] then (p, .ignored, none)
  else
    match p.header with
    | some h => (p, classifyRow h fields)
    | none =>
      if looks_like_header fields then ({ p with header := some fields }, .ignored, none)
      else
        let h := match p.comment_header with
          | some ch => ch
          | none => default_header fields.length
        ({ p with header := some h, comment_header := none }, classifyRow h fields)

/-- Mirrors LineParser::consume_line.  The third component is the rsid of the
VariantRecord passed to the handler (some exactly when the outcome is
Parsed); the monadic handler call itself is made by the driver below. -/
def consume_line (p : LineParser) (line : String) : LineParser × ConsumeOutcome × Option String :=
  let trimmed := trimStr line
  if trimmed = "" then (p, .ignored, none)
  else
    match findMarker trimmed with
    | some m => (commentUpdate p m trimmed, .ignored, none)
    | none => dataStep p line

/-- Pure run of the parser over a list of lines, collecting per-line outcomes
and handler records. -/
def runP (p : LineParser) : List String → LineParser × List (ConsumeOutcome × Option String)
  | [] => (p, [])
  | l :: ls =>
    let step := consume_line p l
    let rest := runP step.1 ls
    (rest.1, (step.2.1, step.2.2) :: rest.2)

/-- Summary increment for one outcome, mirroring the match in process_file. -/
def bump (s : ParseSummary) : ConsumeOutcome → ParseSummary
  | .parsed => { s with variant_count := s.variant_count + 1 }
  | .skipped => { s with skipped_rows := s.skipped_rows + 1 }
  | .ignored => s

/-- Monadic run of the parser: the sink is invoked once per Parsed row (the
handler call inside consume_line) and its error aborts the run. -/
def runE (sink : String → Except String Unit) (p : LineParser) (s : ParseSummary) :
    List String → Except String ParseSummary
  | [] => .ok s
  | l :: ls =>
    let step := consume_line p l
    match step.2.2 with
    | some rcd =>
      match sink rcd with
      | .ok _ => runE sink step.1 (bump s step.2.1) ls
      | .error e => .error e
    | none => runE sink step.1 (bump s step.2.1) ls

/-- Mirrors process_file over the file's list of lines: an empty file is a
fatal error; the delimiter is detected from the lookahead window; every line
is consumed in order and the summary accumulates the outcomes. -/
def process_file (lines : List String) (sink : String → Except String Unit) :
    Except String ParseSummary :=
  if lines = [] then .error "empty file"
  else runE sink (LineParser.new (detect_delimiter (lines.take LOOKAHEAD_LINES)))
    { variant_count := 0, skipped_rows := 0 } lines

instance {ε α : Type} [DecidableEq ε] [DecidableEq α] : DecidableEq (Except ε α) := fun a b =>
  match a, b with
  | .ok x, .ok y => decidable_of_iff (x = y) (by simp)
  | .error x, .error y => decidable_of_iff (x = y) (by simp)
  | .ok _, .error _ => isFalse (by simp)
  | .error _, .ok _ => isFalse (by simp)

/-- The sink used when modelling StatsStore::record_variant_in_tx, which
always returns Ok(()). -/
def okSink : String → Except String Unit := fun _ => .ok ()

/-- Count of Parsed outcomes in a run. -/
def countParsed (outs : List (ConsumeOutcome × Option String)) : Nat :=
  outs.countP (fun o => o.1 = ConsumeOutcome.parsed)

/-- Count of Skipped outcomes in a run. -/
def countSkipped (outs : List (ConsumeOutcome × Option String)) : Nat :=
  outs.countP (fun o => o.1 = ConsumeOutcome.skipped)

/-- Count of Ignored outcomes in a run. -/
def countIgnored (outs : List (ConsumeOutcome × Option String)) : Nat :=
  outs.countP (fun o => o.1 = ConsumeOutcome.ignored)

/-- Mirrors StatsStore::has_file in stats.rs, which ignores its path argument
and returns Ok(false). -/
def has_file (_path : String) : Bool := false

/-- Error type of one file's unit of work in genostats.rs: the sentinel
SkipFile error, or an ordinary error message. -/
inductive FileErr
  | skipFile
  | failure (msg : String)
  deriving DecidableEq, Repr

/-- Mirrors process_single_file: soft-skip when requested and the store has
the file (never, since has_file is constantly false), otherwise parse the
file with the store sink (record_variant_in_tx always succeeds, as do commit
and record_file in stats.rs). -/
def process_single_file (skipIfRecorded : Bool) (path : String) (lines : List String) :
    Except FileErr ParseSummary :=
  if skipIfRecorded && has_file path then .error .skipFile
  else
    match process_file lines okSink with
    | .ok s => .ok s
    | .error msg => .error (.failure msg)

/-- Mirrors the per-file loop of run_genostats: every file is processed; an
error that is not the SkipFile sentinel appends one (path, message) entry to
the failure list.  The parallel loop is modelled in input order. -/
def runBatch (skipIfRecorded : Bool) (files : List (String × List String)) :
    List (String × String) :=
  files.foldl
    (fun failures f =>
      match process_single_file skipIfRecorded f.1 f.2 with
      | .error (.failure msg) => failures ++ [(f.1, msg)]
      | .error .skipFile => failures
      | .ok _ => failures)
    []

/-! ### Statement-level definitions used by the claim theorems -/

/-- Modelled from the amended C2: the delimiter decision a single line yields,
if any.  Blank lines, comment lines, and substantive lines with no tab, no
comma and at most one whitespace token yield no decision; otherwise the
priority is tab, then comma, then whitespace-run. -/
def decideLine (line : String) : Option Delimiter :=
  let trimmed := trimStr line
  if trimmed = "" ∨ (findMarker trimmed).isSome then none
  else if containsChar line '\t' then some .tab
  else if containsChar line ',' then some .comma
  else if (splitWhitespace trimmed).length > 1 then some .space
  else none

/-- Modelled from the claim's words (C3): resolve a field by scanning an
explicit alias order and returning the first non-empty value found in the
row mapping. -/
def resolveFirstAlias (rowMap : List (String × String)) : List String → Option String
  | [] => none
  | a :: rest =>
    let v := (rowGet rowMap (normalize_name a)).getD ""
    if v ≠ "" then some v else resolveFirstAlias rowMap rest

/-- The required-field condition of C1 over a row mapping: non-empty rsid,
non-empty chromosome, a position value parsing as a (64-bit) integer, and a
genotype value or at least one non-empty allele value. -/
def rowValid (rowMap : List (String × String)) : Prop :=
  (lookupAliases rowMap rsidAliasSet).getD "" ≠ ""
  ∧ (lookupAliases rowMap chromAliasSet).getD "" ≠ ""
  ∧ ((lookupAliases rowMap positionAliasSet).bind parseI64).isSome = true
  ∧ ((lookupAliases rowMap genotypeAliasSet).isSome = true
     ∨ (lookupAliases rowMap allele1AliasSet).getD "" ≠ ""
     ∨ (lookupAliases rowMap allele2AliasSet).getD "" ≠ "")

instance (rowMap : List (String × String)) : Decidable (rowValid rowMap) := by
  unfold rowValid; infer_instance

/-- The header-candidate a comment line contributes, if any: the line is
blank-or-comment bookkeeping of consume_line's comment branch, yielding the
tokenized stripped line when it looks like a header. -/
def commentCandidate (delim : Delimiter) (line : String) : Option (List String) :=
  let trimmed := trimStr line
  if trimmed = "" then none
  else
    match findMarker trimmed with
    | some m =>
      let candidate := trimStr (stripRep m trimmed)
      if candidate = "" then none
      else
        let fields := parse_fields delim candidate
        if looks_like_header fields then some fields else none
    | none => none

/-- Last-candidate-wins accumulation of comment-header candidates. -/
def updateCand (old : Option (List String)) : Option (List String) → Option (List String)
  | some fs => some fs
  | none => old

/-- Accumulate comment-header candidates over a run of lines, starting from
a given candidate in force. -/
def foldCand (delim : Delimiter) (init : Option (List String)) (ls : List String) :
    Option (List String) :=
  ls.foldl (fun acc l => updateCand acc (commentCandidate delim l)) init

/-- The comment-header candidate in force after a run of lines: the last
candidate among them, if any. -/
def lastCandidate (delim : Delimiter) (ls : List String) : Option (List String) :=
  foldCand delim none ls

/-- The parser run process_file performs on a file's lines: delimiter detected
over the lookahead window, then every line consumed in order. -/
def parseRun (lines : List String) : LineParser × List (ConsumeOutcome × Option String) :=
  runP (LineParser.new (detect_delimiter (lines.take LOOKAHEAD_LINES))) lines

/-- Whether an Except result is a success. -/
def isOkE {α : Type} : Except String α → Bool
  | .ok _ => true
  | .error _ => false

/-- The failure-list entry a single file contributes to a batch, if any. -/
def entryOf (skipIfRecorded : Bool) (f : String × List String) : Option (String × String) :=
  match process_single_file skipIfRecorded f.1 f.2 with
  | .error (.failure msg) => some (f.1, msg)
  | _ => none

end Biosynth

namespace Biosynth

example : btreeOfList GENOTYPE_ALIASES =
    ["call", "calls", "code", "genotype", "genotypevalue", "gt", "result",
     "result1", "results", "variation", "yourcode"] := by decide

example : rsidAliasSet = ["id", "marker", "name", "rsid", "snp"] := by decide

example : split_csv_line "\"rs123\",\"1, extra\",100,AA" = ["rs123", "1, extra", "100", "AA"] := by
  decide

example : parseI64 "100" = some 100 := by decide
example : parseI64 "-5" = some (-5) := by decide
example : parseI64 "1x" = none := by decide
example : detect_delimiter ["x", "a b"] = .space := by decide
example : detect_delimiter ["# c", "", "a,b\tc"] = .tab := by decide
example : normalize_name "Base_Pair Position" = "basepairposition" := by decide
example : strip_inline_comment " AA # note " = "AA" := by decide
example : stripRep "#" "##x" = "x" := by decide

example :
    runP (LineParser.new .tab) ["# rsid\tchromosome\tposition\tgenotype", "rs1\t1\t100\tAA"] =
      ({ delimiter := .tab, header := some ["rsid", "chromosome", "position", "genotype"],
         comment_header := none },
       [(.ignored, none), (.parsed, some "rs1")]) := by decide

example :
    (consume_line (LineParser.new .tab) "rs1\t1\t100\t\tA" |>.2.1) = ConsumeOutcome.skipped := by
  decide

example :
    (runP (LineParser.new .tab)
      ["rsid\tchromosome\tposition\tgenotype\tallele1", "rs1\t1\t100\t\tA"]).2 =
      [(.ignored, none), (.parsed, some "rs1")] := by decide

example : process_file ["rs1\t1\t100\tAA"] okSink = .ok ⟨1, 0⟩ := by decide

example : process_file [] okSink = .error "empty file" := by decide

example :
    runBatch true [("f1", ["rs1\t1\t100\tAA"]), ("f2", []), ("f3", ["rs3\t2\t200\tTT"])] =
      [("f2", "empty file")] := by decide

/-! ### Case equations for consume_line -/

theorem consume_line_blank (p : LineParser) (l : String) (h : trimStr l = "") :
    consume_line p l = (p, .ignored, none) := by
  simp [consume_line, h]

theorem consume_line_comment (p : LineParser) (l m : String) (h1 : trimStr l ≠ "")
    (h2 : findMarker (trimStr l) = some m) :
    consume_line p l = (commentUpdate p m (trimStr l), .ignored, none) := by
  simp [consume_line, h1, h2]

theorem consume_line_data (p : LineParser) (l : String) (h1 : trimStr l ≠ "")
    (h2 : findMarker (trimStr l) = none) :
    consume_line p l = dataStep p l := by
  simp [consume_line, h1, h2]

theorem dataStep_header_some (p : LineParser) (l : String) (h : List String)
    (hh : p.header = some h) (hf : parse_fields p.delimiter l ≠ []) :
    dataStep p l = (p, classifyRow h (parse_fields p.delimiter l)) := by
  simp [dataStep, hh, hf]

theorem dataStep_header_line (p : LineParser) (l : String) (hh : p.header = none)
    (hf : parse_fields p.delimiter l ≠ [])
    (hl : looks_like_header (parse_fields p.delimiter l) = true) :
    dataStep p l = ({ p with header := some (parse_fields p.delimiter l) }, .ignored, none) := by
  simp [dataStep, hh, hf, hl]

theorem dataStep_comment_fallback (p : LineParser) (l : String) (ch : List String)
    (hh : p.header = none) (hch : p.comment_header = some ch)
    (hf : parse_fields p.delimiter l ≠ [])
    (hl : looks_like_header (parse_fields p.delimiter l) = false) :
    dataStep p l = ({ p with header := some ch, comment_header := none },
      classifyRow ch (parse_fields p.delimiter l)) := by
  simp [dataStep, hh, hch, hf, hl]

theorem dataStep_default_header (p : LineParser) (l : String) (hh : p.header = none)
    (hch : p.comment_header = none) (hf : parse_fields p.delimiter l ≠ [])
    (hl : looks_like_header (parse_fields p.delimiter l) = false) :
    dataStep p l = ({ p with header := some (default_header (parse_fields p.delimiter l).length) },
      classifyRow (default_header (parse_fields p.delimiter l).length)
        (parse_fields p.delimiter l)) := by
  simp [dataStep, hh, hch, hf, hl]

/-! ### Basic facts about classifyRow and lookupAliases -/

theorem lookupAliases_ne_empty (rowMap : List (String × String)) (aliases : List String)
    (v : String) (h : lookupAliases rowMap aliases = some v) : v ≠ "" := by
  induction aliases with
  | nil => simp [lookupAliases] at h
  | cons a rest ih =>
    cases hg : rowGet rowMap (normalize_name a) with
    | none =>
      simp only [lookupAliases, hg] at h
      exact ih h
    | some w =>
      simp only [lookupAliases, hg] at h
      by_cases hw : w = ""
      · rw [if_pos hw] at h
        exact ih h
      · rw [if_neg hw] at h
        cases h
        exact hw

theorem classifyRow_shape (h fs : List String) :
    classifyRow h fs = (.skipped, none) ∨ ∃ v, classifyRow h fs = (.parsed, some v) := by
  simp only [classifyRow]
  split
  · exact Or.inl rfl
  · rename_i v _
    split
    · exact Or.inl rfl
    · split
      · exact Or.inl rfl
      · split
        · exact Or.inl rfl
        · split
          · exact Or.inr ⟨v, rfl⟩
          · split
            · exact Or.inl rfl
            · exact Or.inr ⟨v, rfl⟩

theorem classifyRow_not_ignored (h fs : List String) :
    (classifyRow h fs).1 ≠ ConsumeOutcome.ignored := by
  rcases classifyRow_shape h fs with hc | ⟨v, hc⟩ <;> rw [hc] <;> simp

theorem classifyRow_record_iff (h fs : List String) :
    (classifyRow h fs).2 = none ↔ (classifyRow h fs).1 ≠ ConsumeOutcome.parsed := by
  rcases classifyRow_shape h fs with hc | ⟨v, hc⟩ <;> rw [hc] <;> simp

/-! ### C7: CSV quoting -/

/-- C7: comma tokenization honors double-quote-delimited fields — a comma
inside a quoted field does not split, a doubled quote is a literal quote; the
line from the claim tokenizes to exactly 4 fields with second field
"1, extra". -/
theorem C7_csv_quoting :
    split_csv_line "\"rs123\",\"1, extra\",100,AA" = ["rs123", "1, extra", "100", "AA"]
    ∧ (split_csv_line "\"rs123\",\"1, extra\",100,AA").length = 4
    ∧ split_csv_line "\"a\"\"b\",c" = ["a\"b", "c"] := by
  decide

/-! ### C10: the has_file pre-check never soft-skips -/

/-- C10: StatsStore::has_file returns false for every path, so even with
skip_recorded_files requested no file is soft-skipped: the SkipFile branch of
process_single_file is unreachable and processing does not depend on the
skip flag. -/
theorem C10_no_soft_skip :
    (∀ path, has_file path = false)
    ∧ (∀ skipFlag path lines,
        process_single_file skipFlag path lines ≠ Except.error FileErr.skipFile)
    ∧ (∀ skipFlag path lines,
        process_single_file skipFlag path lines = process_single_file false path lines) := by
  refine ⟨fun _ => rfl, ?_, ?_⟩
  · intro skipFlag path lines
    simp only [process_single_file, has_file, Bool.and_false, if_neg (by simp : ¬False)]
    cases process_file lines okSink <;> simp
  · intro skipFlag path lines
    simp [process_single_file, has_file]

/-- C10 witness: on a concrete file, processing with the skip flag set equals
processing without it, and is not the SkipFile error. -/
theorem C10_no_soft_skip_witness :
    process_single_file true "f" ["rs1\t1\t100\tAA"]
      = process_single_file false "f" ["rs1\t1\t100\tAA"]
    ∧ process_single_file true "f" ["rs1\t1\t100\tAA"] ≠ Except.error FileErr.skipFile :=
  ⟨C10_no_soft_skip.2.2 true "f" ["rs1\t1\t100\tAA"],
   C10_no_soft_skip.2.1 true "f" ["rs1\t1\t100\tAA"]⟩

/-! ### C2: delimiter detection -/

/-- C2 counterexample: a first substantive line with no tab, no comma and a
single whitespace token does not freeze the decision to Tab; a later
space-delimited line decides Space. -/
theorem C2_counterexample :
    detect_delimiter ["x", "a b"] = Delimiter.space ∧ Delimiter.space ≠ Delimiter.tab := by
  decide

/-- C2 amended: detection scans the lookahead lines and decides on the first
line that qualifies — tab present beats comma present beats more than one
whitespace token — skipping blank lines, comment lines, and substantive
lines qualifying for none of the three; Tab is the default only when no line
qualifies.  A line with both a tab and a comma still decides Tab. -/
theorem C2_amended :
    (∀ lines, detect_delimiter lines = (List.findSome? decideLine lines).getD Delimiter.tab)
    ∧ (∀ line, trimStr line ≠ "" → findMarker (trimStr line) = none →
        containsChar line '\t' = true → decideLine line = some Delimiter.tab) := by
  constructor
  · intro lines
    induction lines with
    | nil => rfl
    | cons l rest ih =>
      simp only [detect_delimiter, decideLine, List.findSome?_cons]
      by_cases h1 : trimStr l = "" ∨ (findMarker (trimStr l)).isSome
      · simp only [if_pos h1]
        exact ih
      · simp only [if_neg h1]
        cases h2 : containsChar l '\t' <;> cases h3 : containsChar l ',' <;>
          by_cases h4 : (splitWhitespace (trimStr l)).length > 1 <;>
            simp [h2, h3, h4, ih]
  · intro line h1 h2 h3
    simp [decideLine, h1, h2, h3]

/-- C2 amended, witness: the counterexample input evaluates through the
amended equation, and a tab-and-comma line decides Tab. -/
theorem C2_amended_witness :
    detect_delimiter ["x", "a b"] = (List.findSome? decideLine ["x", "a b"]).getD Delimiter.tab
    ∧ decideLine "a,b\tc" = some Delimiter.tab :=
  ⟨C2_amended.1 ["x", "a b"], C2_amended.2 "a,b\tc" (by decide) (by decide) (by decide)⟩

/-! ### C3: alias resolution order -/

theorem lookupAliases_eq_resolveFirst (rowMap : List (String × String)) (aliases : List String) :
    lookupAliases rowMap aliases = resolveFirstAlias rowMap aliases := by
  induction aliases with
  | nil => rfl
  | cons a rest ih =>
    simp only [lookupAliases, resolveFirstAlias]
    cases hg : rowGet rowMap (normalize_name a) with
    | none => simpa using ih
    | some w =>
      by_cases hw : w = "" <;> simp [hw, ih]

/-- C3 counterexample: a row with non-empty values under both the genotype
and the call aliases resolves to the call column's value "CC", not to the
declared-order winner "AA" from the genotype column. -/
theorem C3_counterexample :
    lookupAliases (mkRowMap ["genotype", "call"] ["AA", "CC"]) genotypeAliasSet = some "CC"
    ∧ resolveFirstAlias (mkRowMap ["genotype", "call"] ["AA", "CC"]) GENOTYPE_ALIASES
        = some "AA"
    ∧ some "CC" ≠ some "AA" := by
  decide

/-- C3 amended: the classifier resolves a field to the value of the first
alias in the BTreeSet's sorted (lexicographic) order, not the declared
order; for genotype that order is call, calls, code, genotype,
genotypevalue, gt, result, result1, results, variation, yourcode, so a row
with both a genotype and a call column resolves to the call column's
value. -/
theorem C3_amended (rowMap : List (String × String)) :
    lookupAliases rowMap genotypeAliasSet
      = resolveFirstAlias rowMap ["call", "calls", "code", "genotype", "genotypevalue", "gt",
          "result", "result1", "results", "variation", "yourcode"]
    ∧ lookupAliases rowMap rsidAliasSet
      = resolveFirstAlias rowMap ["id", "marker", "name", "rsid", "snp"]
    ∧ lookupAliases rowMap chromAliasSet
      = resolveFirstAlias rowMap ["chr", "chrom", "chromosome"]
    ∧ lookupAliases rowMap positionAliasSet
      = resolveFirstAlias rowMap ["basepair", "basepairposition", "coordinate", "pos", "position"]
    ∧ lookupAliases rowMap allele1AliasSet
      = resolveFirstAlias rowMap ["allele1", "allele1top", "allele_a", "allelea"]
    ∧ lookupAliases rowMap allele2AliasSet
      = resolveFirstAlias rowMap ["allele2", "allele2top", "allele_b", "alleleb"] := by
  refine ⟨?_, ?_, ?_, ?_, ?_, ?_⟩
  · rw [show genotypeAliasSet = ["call", "calls", "code", "genotype", "genotypevalue", "gt",
      "result", "result1", "results", "variation", "yourcode"] from by decide]
    exact lookupAliases_eq_resolveFirst rowMap _
  · rw [show rsidAliasSet = ["id", "marker", "name", "rsid", "snp"] from by decide]
    exact lookupAliases_eq_resolveFirst rowMap _
  · rw [show chromAliasSet = ["chr", "chrom", "chromosome"] from by decide]
    exact lookupAliases_eq_resolveFirst rowMap _
  · rw [show positionAliasSet
      = ["basepair", "basepairposition", "coordinate", "pos", "position"] from by decide]
    exact lookupAliases_eq_resolveFirst rowMap _
  · rw [show allele1AliasSet = ["allele1", "allele1top", "allele_a", "allelea"] from by decide]
    exact lookupAliases_eq_resolveFirst rowMap _
  · rw [show allele2AliasSet = ["allele2", "allele2top", "allele_b", "alleleb"] from by decide]
    exact lookupAliases_eq_resolveFirst rowMap _

/-- C3 amended, witness: the amended theorem evaluated at the concrete row
with both a genotype and a call column. -/
theorem C3_amended_witness :
    lookupAliases (mkRowMap ["genotype", "call"] ["AA", "CC"]) genotypeAliasSet
      = resolveFirstAlias (mkRowMap ["genotype", "call"] ["AA", "CC"])
          ["call", "calls", "code", "genotype", "genotypevalue", "gt", "result", "result1",
           "results", "variation", "yourcode"] :=
  (C3_amended (mkRowMap ["genotype", "call"] ["AA", "CC"])).1

/-! ### C1: required-field validation -/

theorem classifyRow_parsed_iff (h fs : List String) :
    (classifyRow h fs).1 = ConsumeOutcome.parsed ↔ rowValid (mkRowMap h fs) := by
  simp only [classifyRow, rowValid]
  cases hr : lookupAliases (mkRowMap h fs) rsidAliasSet with
  | none => simp
  | some v =>
    have hv : v ≠ "" := lookupAliases_ne_empty _ _ _ hr
    cases hc : lookupAliases (mkRowMap h fs) chromAliasSet with
    | none => simp [hv]
    | some c =>
      have hcne : c ≠ "" := lookupAliases_ne_empty _ _ _ hc
      cases hp : (lookupAliases (mkRowMap h fs) positionAliasSet).bind parseI64 with
      | none => simp [hv, hcne]
      | some n =>
        cases hg : lookupAliases (mkRowMap h fs) genotypeAliasSet with
        | some g => simp [hv, hcne]
        | none =>
          by_cases ha1 : (lookupAliases (mkRowMap h fs) allele1AliasSet).getD "" = "" <;>
            by_cases ha2 : (lookupAliases (mkRowMap h fs) allele2AliasSet).getD "" = "" <;>
              simp [hv, hcne, ha1, ha2]

theorem classifyRow_skipped_iff (h fs : List String) :
    (classifyRow h fs).1 = ConsumeOutcome.skipped ↔ ¬ rowValid (mkRowMap h fs) := by
  have hp := classifyRow_parsed_iff h fs
  rcases classifyRow_shape h fs with hc | ⟨v, hc⟩ <;> rw [hc] at hp ⊢ <;> simp at hp ⊢ <;>
    simp [hp]

/-- C1: with the header resolved, a data row is Parsed exactly when it yields
a non-empty rsid, a non-empty chromosome, a position value that parses as a
64-bit integer, and a genotype value or at least one non-empty
allele1/allele2 value; any failing check makes it Skipped instead. -/
theorem C1_row_validation (p : LineParser) (line : String) (h : List String)
    (hh : p.header = some h) (hne : trimStr line ≠ "")
    (hm : findMarker (trimStr line) = none) (hf : parse_fields p.delimiter line ≠ []) :
    ((consume_line p line).2.1 = ConsumeOutcome.parsed
      ↔ rowValid (mkRowMap h (parse_fields p.delimiter line)))
    ∧ ((consume_line p line).2.1 = ConsumeOutcome.skipped
      ↔ ¬ rowValid (mkRowMap h (parse_fields p.delimiter line))) := by
  rw [consume_line_data p line hne hm, dataStep_header_some p line h hh hf]
  exact ⟨classifyRow_parsed_iff h _, classifyRow_skipped_iff h _⟩

/-- C1 witness: under header rsid/chromosome/position/genotype/allele1, the
row with empty genotype and allele1 set is Parsed, and the same row with the
allele also empty is Skipped. -/
theorem C1_row_validation_witness :
    (consume_line ⟨.tab, some ["rsid", "chromosome", "position", "genotype", "allele1"], none⟩
      "rs1\t1\t100\t\tA").2.1 = ConsumeOutcome.parsed
    ∧ (consume_line ⟨.tab, some ["rsid", "chromosome", "position", "genotype", "allele1"], none⟩
      "rs1\t1\t100\t\t").2.1 = ConsumeOutcome.skipped := by
  constructor
  · exact (C1_row_validation _ "rs1\t1\t100\t\tA" _ rfl (by decide) (by decide)
      (by decide)).1.mpr (by decide)
  · exact (C1_row_validation _ "rs1\t1\t100\t\t" _ rfl (by decide) (by decide)
      (by decide)).2.mpr (by decide)

/-! ### C5: default header synthesis -/

/-- C5: when no true header and no comment-header candidate exist, the
resolved header is the synthesized default matching the first data row's
field count — the first k of rsid, chromosome, position, genotype for k ≤ 4,
and those four followed by extra_0, extra_1, ... for k > 4. -/
theorem C5_default_header (p : LineParser) (line : String)
    (hh : p.header = none) (hch : p.comment_header = none)
    (hne : trimStr line ≠ "") (hm : findMarker (trimStr line) = none)
    (hf : parse_fields p.delimiter line ≠ [])
    (hl : looks_like_header (parse_fields p.delimiter line) = false) :
    (consume_line p line).1.header
      = some (default_header (parse_fields p.delimiter line).length)
    ∧ ∀ k, default_header k =
        (if k ≤ 4 then ["rsid", "chromosome", "position", "genotype"].take k
         else ["rsid", "chromosome", "position", "genotype"]
           ++ (List.range (k - 4)).map (fun idx => "extra_" ++ toString idx)) := by
  constructor
  · rw [consume_line_data p line hne hm, dataStep_default_header p line hh hch hf hl]
  · intro k
    rfl

/-- C5 witness: a headerless 5-field tab row synthesizes the header
rsid, chromosome, position, genotype, extra_0. -/
theorem C5_default_header_witness :
    (consume_line (LineParser.new .tab) "rs1\t1\t100\tAA\tX").1.header
      = some (default_header (parse_fields Delimiter.tab "rs1\t1\t100\tAA\tX").length)
    ∧ default_header 5 = ["rsid", "chromosome", "position", "genotype", "extra_0"] := by
  constructor
  · exact (C5_default_header (LineParser.new .tab) "rs1\t1\t100\tAA\tX" rfl rfl (by decide)
      (by decide) (by decide) (by decide)).1
  · decide

/-! ### Run-level lemmas -/

theorem runP_cons (p : LineParser) (l : String) (ls : List String) :
    runP p (l :: ls) = ((runP (consume_line p l).1 ls).1,
      (consume_line p l).2 :: (runP (consume_line p l).1 ls).2) := rfl

theorem runP_append (p : LineParser) (xs ys : List String) :
    runP p (xs ++ ys) = ((runP (runP p xs).1 ys).1,
      (runP p xs).2 ++ (runP (runP p xs).1 ys).2) := by
  induction xs generalizing p with
  | nil => simp [runP]
  | cons x xs ih => simp [runP, ih]

theorem consume_record_iff (p : LineParser) (l : String) :
    (consume_line p l).2.2 = none ↔ (consume_line p l).2.1 ≠ ConsumeOutcome.parsed := by
  by_cases hb : trimStr l = ""
  · simp [consume_line_blank p l hb]
  · cases hm : findMarker (trimStr l) with
    | some m => simp [consume_line_comment p l m hb hm]
    | none =>
      rw [consume_line_data p l hb hm]
      simp only [dataStep]
      by_cases hf : parse_fields p.delimiter l = []
      · simp [hf]
      · simp only [if_neg hf]
        cases hh : p.header with
        | some h => exact classifyRow_record_iff h _
        | none =>
          by_cases hl : looks_like_header (parse_fields p.delimiter l)
          · simp [hl]
          · rw [if_neg hl]
            cases hch : p.comment_header with
            | some ch => exact classifyRow_record_iff ch _
            | none => exact classifyRow_record_iff _ _

theorem counts_split (outs : List (ConsumeOutcome × Option String)) :
    countParsed outs + countSkipped outs + countIgnored outs = outs.length := by
  induction outs with
  | nil => rfl
  | cons o rest ih =>
    simp only [countParsed, countSkipped, countIgnored, List.countP_cons, List.length_cons]
    simp only [countParsed, countSkipped, countIgnored] at ih
    cases ho : o.1 <;> simp [ho] <;> omega

theorem countIgnored_eq_zero (outs : List (ConsumeOutcome × Option String))
    (h : ∀ o ∈ outs, o.1 ≠ ConsumeOutcome.ignored) : countIgnored outs = 0 := by
  simp only [countIgnored, List.countP_eq_zero]
  intro o ho
  simp [h o ho]

theorem runE_okSink (p : LineParser) (s : ParseSummary) (ls : List String) :
    runE okSink p s ls = .ok ⟨s.variant_count + countParsed (runP p ls).2,
      s.skipped_rows + countSkipped (runP p ls).2⟩ := by
  induction ls generalizing p s with
  | nil => simp [runE, runP, countParsed, countSkipped]
  | cons l ls ih =>
    simp only [runE, runP]
    cases hr : (consume_line p l).2.2 <;>
      simp only [hr, okSink] <;>
        rw [ih] <;>
          cases ho : (consume_line p l).2.1 <;>
            simp [bump, countParsed, countSkipped, List.countP_cons, ho] <;> omega

theorem runE_failSink (e : String) (p : LineParser) (s : ParseSummary) (ls : List String)
    (hex : ∃ o ∈ (runP p ls).2, o.1 = ConsumeOutcome.parsed) :
    runE (fun _ => .error e) p s ls = .error e := by
  induction ls generalizing p s with
  | nil => simp [runP] at hex
  | cons l ls ih =>
    cases hr : (consume_line p l).2.2 with
    | some rcd => simp [runE, hr]
    | none =>
      have hnp : (consume_line p l).2.1 ≠ ConsumeOutcome.parsed := (consume_record_iff p l).mp hr
      simp only [runE, hr]
      apply ih
      rw [runP_cons] at hex
      rcases hex with ⟨o, ho, hop⟩
      rcases List.mem_cons.mp ho with rfl | htail
      · exact absurd hop hnp
      · exact ⟨o, htail, hop⟩

/-! ### C8: empty files and sink failures -/

/-- C8: with a never-failing sink, process_file fails exactly on a file with
zero lines; with a failing sink, the sink's error on a Parsed row propagates
as the error of the whole call. -/
theorem C8_empty_and_sink_errors :
    (∀ lines, isOkE (process_file lines okSink) = true ↔ lines ≠ [])
    ∧ (∀ lines e, (∃ o ∈ (parseRun lines).2, o.1 = ConsumeOutcome.parsed) →
        process_file lines (fun _ => .error e) = .error e) := by
  constructor
  · intro lines
    by_cases hl : lines = []
    · simp [hl, process_file, isOkE]
    · simp only [process_file, if_neg hl]
      rw [runE_okSink]
      simp [isOkE, hl]
  · intro lines e hex
    have hl : lines ≠ [] := by
      intro hcon
      rw [hcon] at hex
      simp [parseRun, runP] at hex
    simp only [process_file, if_neg hl]
    exact runE_failSink e _ _ lines hex

/-- C8 witness: a one-line parseable file succeeds with the ok sink, and with
an always-failing sink the file call returns that error. -/
theorem C8_witness :
    isOkE (process_file ["rs1\t1\t100\tAA"] okSink) = true
    ∧ process_file ["rs1\t1\t100\tAA"] (fun _ => .error "boom") = .error "boom" := by
  constructor
  · exact (C8_empty_and_sink_errors.1 ["rs1\t1\t100\tAA"]).mpr (by decide)
  · exact C8_empty_and_sink_errors.2 ["rs1\t1\t100\tAA"] "boom" (by decide)

/-! ### C9: batch isolation -/

theorem runBatch_acc (skipFlag : Bool) (files : List (String × List String))
    (acc : List (String × String)) :
    files.foldl
      (fun failures f =>
        match process_single_file skipFlag f.1 f.2 with
        | .error (.failure msg) => failures ++ [(f.1, msg)]
        | .error .skipFile => failures
        | .ok _ => failures)
      acc
    = acc ++ files.filterMap (entryOf skipFlag) := by
  induction files generalizing acc with
  | nil => simp
  | cons f fs ih =>
    simp only [List.foldl_cons, List.filterMap_cons]
    cases hp : process_single_file skipFlag f.1 f.2 with
    | ok s => simp [entryOf, hp, ih]
    | error err =>
      cases err with
      | skipFile => simp [entryOf, hp, ih]
      | failure msg => simp [entryOf, hp, ih]

theorem runBatch_eq_filterMap (skipFlag : Bool) (files : List (String × List String)) :
    runBatch skipFlag files = files.filterMap (entryOf skipFlag) := by
  simpa [runBatch] using runBatch_acc skipFlag files []

theorem process_single_file_ok (skipFlag : Bool) (path : String) (lines : List String)
    (hl : lines ≠ []) :
    process_single_file skipFlag path lines
      = .ok ⟨countParsed (parseRun lines).2, countSkipped (parseRun lines).2⟩ := by
  simp only [process_single_file, has_file, Bool.and_false, if_neg (by simp : ¬False)]
  simp only [process_file, if_neg hl]
  rw [runE_okSink]
  simp [parseRun]

theorem entryOf_empty (skipFlag : Bool) (path : String) :
    entryOf skipFlag (path, ([] : List String)) = some (path, "empty file") := by
  simp [entryOf, process_single_file, has_file, process_file]

/-- C9: an error on one file (such as an empty file) is caught at that file's
boundary, contributes exactly one (path, message) failure entry, and every
other file is processed to completion regardless of the failing file's
position. -/
theorem C9_batch_isolation (skipFlag : Bool) (as bs : List (String × List String)) (p : String)
    (ha : ∀ f ∈ as, f.2 ≠ ([] : List String)) (hb : ∀ f ∈ bs, f.2 ≠ ([] : List String)) :
    runBatch skipFlag (as ++ (p, ([] : List String)) :: bs) = [(p, "empty file")]
    ∧ ∀ f ∈ as ++ bs, process_single_file skipFlag f.1 f.2
        = .ok ⟨countParsed (parseRun f.2).2, countSkipped (parseRun f.2).2⟩ := by
  constructor
  · rw [runBatch_eq_filterMap, List.filterMap_append, List.filterMap_cons, entryOf_empty]
    have hasn : as.filterMap (entryOf skipFlag) = [] := by
      rw [List.filterMap_eq_nil_iff]
      intro f hf
      simp [entryOf, process_single_file_ok skipFlag f.1 f.2 (ha f hf)]
    have hbsn : bs.filterMap (entryOf skipFlag) = [] := by
      rw [List.filterMap_eq_nil_iff]
      intro f hf
      simp [entryOf, process_single_file_ok skipFlag f.1 f.2 (hb f hf)]
    simp [hasn, hbsn]
  · intro f hf
    rcases List.mem_append.mp hf with h | h
    · exact process_single_file_ok _ _ _ (ha f h)
    · exact process_single_file_ok _ _ _ (hb f h)

/-- C9 witness: three files where only the middle one is empty yield exactly
one failure entry, for that file, and the other two parse successfully. -/
theorem C9_batch_isolation_witness :
    runBatch true [("f1", ["rs1\t1\t100\tAA"]), ("f2", ([] : List String)),
      ("f3", ["rs3\t2\t200\tTT"])] = [("f2", "empty file")] := by
  have h := C9_batch_isolation true [("f1", ["rs1\t1\t100\tAA"])] [("f3", ["rs3\t2\t200\tTT"])]
    "f2" (by decide) (by decide)
  simpa using h.1

/-! ### C4: comment-header fallback -/

theorem findMarker_empty : findMarker "" = none := by decide

theorem commentUpdate_eq (p : LineParser) (m l : String) (h1 : trimStr l ≠ "")
    (h2 : findMarker (trimStr l) = some m) :
    commentUpdate p m (trimStr l)
      = { p with comment_header :=
            updateCand p.comment_header (commentCandidate p.delimiter l) } := by
  simp only [commentUpdate, commentCandidate, h2, if_neg h1]
  by_cases hc : trimStr (stripRep m (trimStr l)) = ""
  · simp [hc, updateCand]
  · simp only [if_neg hc]
    by_cases hl : looks_like_header (parse_fields p.delimiter (trimStr (stripRep m (trimStr l))))
    · simp [hl, updateCand]
    · simp [hl, updateCand]

theorem runP_ignorable (pre : List String) (p : LineParser) (hh : p.header = none)
    (hpre : ∀ l ∈ pre, trimStr l = "" ∨ (findMarker (trimStr l)).isSome = true) :
    (runP p pre).1 = { p with comment_header := foldCand p.delimiter p.comment_header pre }
    ∧ ∀ o ∈ (runP p pre).2, o.1 = ConsumeOutcome.ignored := by
  induction pre generalizing p with
  | nil =>
    refine ⟨rfl, ?_⟩
    simp [runP]
  | cons l ls ih =>
    have hl := hpre l (List.mem_cons_self l ls)
    have hrest : ∀ x ∈ ls, trimStr x = "" ∨ (findMarker (trimStr x)).isSome = true :=
      fun x hx => hpre x (List.mem_cons_of_mem l hx)
    have hfold : foldCand p.delimiter p.comment_header (l :: ls)
        = foldCand p.delimiter (updateCand p.comment_header (commentCandidate p.delimiter l))
            ls := rfl
    rcases hl with hb | hm
    · have hcl : consume_line p l = (p, .ignored, none) := consume_line_blank p l hb
      have hcand : commentCandidate p.delimiter l = none := by
        simp [commentCandidate, hb]
      rw [runP_cons, hcl]
      refine ⟨?_, ?_⟩
      · rw [(ih p hh hrest).1, hfold, hcand]
        rfl
      · intro o ho
        rcases List.mem_cons.mp ho with rfl | htail
        · rfl
        · exact (ih p hh hrest).2 o htail
    · have hne : trimStr l ≠ "" := by
        intro hcon
        rw [hcon, findMarker_empty] at hm
        simp at hm
      obtain ⟨m, hmm⟩ := Option.isSome_iff_exists.mp hm
      have hcl := consume_line_comment p l m hne hmm
      rw [commentUpdate_eq p m l hne hmm] at hcl
      have hh' : (⟨p.delimiter, p.header,
          updateCand p.comment_header (commentCandidate p.delimiter l)⟩ : LineParser).header
          = none := hh
      have ih' := ih (⟨p.delimiter, p.header,
        updateCand p.comment_header (commentCandidate p.delimiter l)⟩ : LineParser) hh' hrest
      rw [runP_cons, hcl]
      refine ⟨?_, ?_⟩
      · rw [ih'.1, hfold]
      · intro o ho
        rcases List.mem_cons.mp ho with rfl | htail
        · rfl
        · exact ih'.2 o htail

/-- C4: when the lines before the first data line are all blank or comments
and at least one of them is a comment-header candidate, the last such
candidate becomes the resolved header, and the first data line (which does
not itself look like a header) is classified as an ordinary data row,
yielding Parsed or Skipped. -/
theorem C4_comment_header_fallback (delim : Delimiter) (pre : List String) (d : String)
    (hdr : List String)
    (hpre : ∀ l ∈ pre, trimStr l = "" ∨ (findMarker (trimStr l)).isSome = true)
    (hcand : lastCandidate delim pre = some hdr)
    (hdne : trimStr d ≠ "") (hdm : findMarker (trimStr d) = none)
    (hdf : parse_fields delim d ≠ [])
    (hdl : looks_like_header (parse_fields delim d) = false) :
    (runP (LineParser.new delim) (pre ++ [d])).1.header = some hdr
    ∧ ∃ o, (runP (LineParser.new delim) (pre ++ [d])).2.getLast? = some o
        ∧ (o.1 = ConsumeOutcome.parsed ∨ o.1 = ConsumeOutcome.skipped) := by
  have hpre1 := runP_ignorable pre (LineParser.new delim) rfl hpre
  have hfold : foldCand (LineParser.new delim).delimiter (LineParser.new delim).comment_header pre
      = some hdr := hcand
  have hp1 : (runP (LineParser.new delim) pre).1
      = (⟨delim, none, some hdr⟩ : LineParser) := by
    rw [hpre1.1, hfold]
    rfl
  have hstep : consume_line (⟨delim, none, some hdr⟩ : LineParser) d
      = ((⟨delim, some hdr, none⟩ : LineParser), classifyRow hdr (parse_fields delim d)) := by
    rw [consume_line_data _ d hdne hdm]
    exact dataStep_comment_fallback _ d hdr rfl rfl hdf hdl
  rw [runP_append, hp1, runP_cons, hstep]
  constructor
  · simp [runP]
  · refine ⟨classifyRow hdr (parse_fields delim d), ?_, ?_⟩
    · simp [runP, List.getLast?_concat]
    · rcases classifyRow_shape hdr (parse_fields delim d) with hc | ⟨v, hc⟩ <;> rw [hc] <;> simp

/-- C4 witness: a comment header line followed by a data row resolves the
header from the comment and classifies the data row as Parsed or Skipped. -/
theorem C4_comment_header_fallback_witness :
    (runP (LineParser.new .tab)
      (["# rsid\tchromosome\tposition\tgenotype"] ++ ["rs1\t1\t100\tAA"])).1.header
      = some ["rsid", "chromosome", "position", "genotype"]
    ∧ ∃ o, (runP (LineParser.new .tab)
        (["# rsid\tchromosome\tposition\tgenotype"] ++ ["rs1\t1\t100\tAA"])).2.getLast? = some o
        ∧ (o.1 = ConsumeOutcome.parsed ∨ o.1 = ConsumeOutcome.skipped) :=
  C4_comment_header_fallback .tab ["# rsid\tchromosome\tposition\tgenotype"] "rs1\t1\t100\tAA"
    ["rsid", "chromosome", "position", "genotype"] (by decide) (by decide) (by decide)
    (by decide) (by decide) (by decide)

/-! ### C6: per-line outcomes and the final summary -/

theorem runP_headerSome (p : LineParser) (h : List String) (ls : List String)
    (hh : p.header = some h)
    (hls : ∀ l ∈ ls, trimStr l ≠ "" ∧ findMarker (trimStr l) = none
      ∧ parse_fields p.delimiter l ≠ []) :
    (runP p ls).2.length = ls.length
    ∧ ∀ o ∈ (runP p ls).2, o.1 ≠ ConsumeOutcome.ignored := by
  induction ls generalizing p with
  | nil => simp [runP]
  | cons l ls ih =>
    obtain ⟨hne, hm, hf⟩ := hls l (List.mem_cons_self l ls)
    have hrest : ∀ x ∈ ls, trimStr x = "" → False := fun x hx hcon =>
      (hls x (List.mem_cons_of_mem l hx)).1 hcon
    have hcl : consume_line p l = (p, classifyRow h (parse_fields p.delimiter l)) := by
      rw [consume_line_data p l hne hm, dataStep_header_some p l h hh hf]
    rw [runP_cons, hcl]
    have ihh := ih p hh (fun x hx => hls x (List.mem_cons_of_mem l hx))
    refine ⟨by simp [ihh.1], ?_⟩
    intro o ho
    rcases List.mem_cons.mp ho with rfl | htail
    · exact classifyRow_not_ignored h _
    · exact ihh.2 o htail

/-- C6: on a file with no blank and no comment lines, every line yields
exactly one outcome, and variant_count + skipped_rows equals the number of
lines minus one exactly when the first line is consumed as a header (minus
zero otherwise), with variant_count counting Parsed and skipped_rows
counting Skipped outcomes. -/
theorem C6_summary_accounting (first : String) (rest : List String)
    (hg : ∀ l ∈ (first :: rest),
      trimStr l ≠ "" ∧ findMarker (trimStr l) = none
      ∧ parse_fields (detect_delimiter ((first :: rest).take LOOKAHEAD_LINES)) l ≠ []) :
    (parseRun (first :: rest)).2.length = (first :: rest).length
    ∧ countParsed (parseRun (first :: rest)).2 + countSkipped (parseRun (first :: rest)).2
        = (first :: rest).length
          - (if looks_like_header
              (parse_fields (detect_delimiter ((first :: rest).take LOOKAHEAD_LINES)) first)
             then 1 else 0)
    ∧ process_file (first :: rest) okSink
        = .ok ⟨countParsed (parseRun (first :: rest)).2,
            countSkipped (parseRun (first :: rest)).2⟩ := by
  obtain ⟨hne, hm, hf⟩ := hg first (List.mem_cons_self first rest)
  have hrest : ∀ x ∈ rest, trimStr x ≠ "" ∧ findMarker (trimStr x) = none
      ∧ parse_fields (detect_delimiter ((first :: rest).take LOOKAHEAD_LINES)) x ≠ [] :=
    fun x hx => hg x (List.mem_cons_of_mem first hx)
  have hmain : (parseRun (first :: rest)).2.length = (first :: rest).length
      ∧ countParsed (parseRun (first :: rest)).2 + countSkipped (parseRun (first :: rest)).2
        = (first :: rest).length
          - (if looks_like_header
              (parse_fields (detect_delimiter ((first :: rest).take LOOKAHEAD_LINES)) first)
             then 1 else 0) := by
    by_cases hlh : looks_like_header
      (parse_fields (detect_delimiter ((first :: rest).take LOOKAHEAD_LINES)) first)
    · have hcl : consume_line (LineParser.new (detect_delimiter ((first :: rest).take
          LOOKAHEAD_LINES))) first
          = ((⟨detect_delimiter ((first :: rest).take LOOKAHEAD_LINES),
              some (parse_fields (detect_delimiter ((first :: rest).take LOOKAHEAD_LINES)) first),
              none⟩ : LineParser), .ignored, none) := by
        rw [consume_line_data _ first hne hm]
        exact dataStep_header_line _ first rfl hf hlh
      have hrun := runP_headerSome
        (⟨detect_delimiter ((first :: rest).take LOOKAHEAD_LINES),
          some (parse_fields (detect_delimiter ((first :: rest).take LOOKAHEAD_LINES)) first),
          none⟩ : LineParser) _ rest rfl hrest
      unfold parseRun
      rw [runP_cons, hcl]
      have hz := countIgnored_eq_zero _ hrun.2
      have hc := counts_split (runP
        (⟨detect_delimiter ((first :: rest).take LOOKAHEAD_LINES),
          some (parse_fields (detect_delimiter ((first :: rest).take LOOKAHEAD_LINES)) first),
          none⟩ : LineParser) rest).2
      refine ⟨by simp [hrun.1], ?_⟩
      rw [if_pos hlh]
      simp only [countParsed, countSkipped, List.countP_cons, List.length_cons]
      simp only [countParsed, countSkipped, countIgnored] at hc hz
      simp only [hrun.1] at hc
      simp
      omega
    · have hcl : consume_line (LineParser.new (detect_delimiter ((first :: rest).take
          LOOKAHEAD_LINES))) first
          = ((⟨detect_delimiter ((first :: rest).take LOOKAHEAD_LINES),
              some (default_header (parse_fields (detect_delimiter ((first :: rest).take
                LOOKAHEAD_LINES)) first).length),
              none⟩ : LineParser),
             classifyRow (default_header (parse_fields (detect_delimiter ((first :: rest).take
               LOOKAHEAD_LINES)) first).length)
               (parse_fields (detect_delimiter ((first :: rest).take LOOKAHEAD_LINES)) first)) := by
        rw [consume_line_data _ first hne hm]
        exact dataStep_default_header _ first rfl rfl hf (by simpa using hlh)
      have hrun := runP_headerSome
        (⟨detect_delimiter ((first :: rest).take LOOKAHEAD_LINES),
          some (default_header (parse_fields (detect_delimiter ((first :: rest).take
            LOOKAHEAD_LINES)) first).length),
          none⟩ : LineParser) _ rest rfl hrest
      unfold parseRun
      rw [runP_cons, hcl]
      have hz := countIgnored_eq_zero _ hrun.2
      have hc := counts_split (runP
        (⟨detect_delimiter ((first :: rest).take LOOKAHEAD_LINES),
          some (default_header (parse_fields (detect_delimiter ((first :: rest).take
            LOOKAHEAD_LINES)) first).length),
          none⟩ : LineParser) rest).2
      refine ⟨by simp [hrun.1], ?_⟩
      rw [if_neg hlh]
      simp only [countParsed, countSkipped, List.countP_cons, List.length_cons]
      simp only [countParsed, countSkipped, countIgnored] at hc hz
      simp only [hrun.1] at hc
      rcases classifyRow_shape
        (default_header (parse_fields (detect_delimiter ((first :: rest).take
          LOOKAHEAD_LINES)) first).length)
        (parse_fields (detect_delimiter ((first :: rest).take LOOKAHEAD_LINES)) first)
        with hcr | ⟨v, hcr⟩ <;> rw [hcr] <;> simp <;> omega
  refine ⟨hmain.1, hmain.2, ?_⟩
  have hnil : (first :: rest) ≠ ([] : List String) := by simp
  simp only [process_file, if_neg hnil]
  rw [runE_okSink]
  simp [parseRun]

/-- C6 witness: a three-line headered tab file yields one outcome per line
and a summary of 1 parsed + 1 skipped = 3 lines - 1 header. -/
theorem C6_summary_accounting_witness :
    (parseRun ["rsid\tchromosome\tposition\tgenotype", "rs1\t1\t100\tAA", "rs2\t\t200\tTT"]).2.length
      = 3
    ∧ countParsed
        (parseRun ["rsid\tchromosome\tposition\tgenotype", "rs1\t1\t100\tAA", "rs2\t\t200\tTT"]).2
      + countSkipped
        (parseRun ["rsid\tchromosome\tposition\tgenotype", "rs1\t1\t100\tAA", "rs2\t\t200\tTT"]).2
      = 2
    ∧ process_file ["rsid\tchromosome\tposition\tgenotype", "rs1\t1\t100\tAA", "rs2\t\t200\tTT"]
        okSink
      = .ok ⟨countParsed (parseRun ["rsid\tchromosome\tposition\tgenotype", "rs1\t1\t100\tAA",
              "rs2\t\t200\tTT"]).2,
            countSkipped (parseRun ["rsid\tchromosome\tposition\tgenotype", "rs1\t1\t100\tAA",
              "rs2\t\t200\tTT"]).2⟩ := by
  have h := C6_summary_accounting "rsid\tchromosome\tposition\tgenotype"
    ["rs1\t1\t100\tAA", "rs2\t\t200\tTT"] (by decide)
  exact ⟨h.1, by rw [h.2.1]; decide, h.2.2⟩

end Biosynth
